import Mathlib

/-!
Shallow embedding of the outreach100 church-data backend (the `server.js`
variants in this repository) together with proofs about its extractor,
year scraper, consolidator and API route logic.

Modelling conventions:
* JavaScript numbers appearing in this code are integers throughout
  (ranks, years, attendance, timestamps); they are embedded as `Nat`/`Int`.
  `parseInt` returning `NaN` is embedded as `none`.
* The cheerio document is abstracted by the exact pieces of text the code
  reads for each matched anchor (`a[href*="/churches/"]`): the text of the
  container's previous sibling, the anchor's previous sibling, the anchor
  itself, the first heading descendant, and the list of `.text()` values of
  the container's descendant elements in document order (its head is the
  `find(star).first()` text).
* `Array.prototype.sort(cmp)` with the consistent comparators used here
  (`a.k - b.k` on integers) is a stable sort; it is embedded as a stable
  insertion sort `jsSortBy le` where `le x y` means the comparator result
  on `(x, y)` is not positive.
* The network, the file system and `JSON.parse` are oracles passed as
  explicit arguments (`FetchResult`, `LoadSource`).
-/

namespace Outreach

/-- Word character in the sense of the JavaScript regex boundary `\b`:
ASCII letters, digits, or underscore. -/
def isWordChar (c : Char) : Bool := c.isAlphanum || c = '_'

/-- JavaScript `String.prototype.trim`: strip leading and trailing
whitespace. -/
def jsTrim (s : String) : String :=
  ⟨((s.data.dropWhile (fun c => c.isWhitespace)).reverse.dropWhile
      (fun c => c.isWhitespace)).reverse⟩

/-- Split a character list at every occurrence of a separator character
(JavaScript `String.prototype.split` with a one-character separator). -/
def splitOnChar (sep : Char) : List Char → List (List Char)
  | [] => [[]]
  | c :: rest =>
    let r := splitOnChar sep rest
    if c = sep then [] :: r
    else
      match r with
      | [] => [[c]]
      | h :: t => (c :: h) :: t

/-- Numeric value of a list of decimal digit characters. -/
def digitsToNat (l : List Char) : Nat :=
  l.foldl (fun a c => a * 10 + (c.toNat - 48)) 0

/-- Hexadecimal digit recognizer, for the `0x` branch of `parseInt`. -/
def isHexDigitChar (c : Char) : Bool :=
  c.isDigit || ('a' ≤ c && c ≤ 'f') || ('A' ≤ c && c ≤ 'F')

/-- Numeric value of one hexadecimal digit character. -/
def hexVal (c : Char) : Nat :=
  if c.isDigit then c.toNat - 48
  else if 'a' ≤ c && c ≤ 'f' then c.toNat - 87
  else c.toNat - 55

/-- Numeric value of a list of hexadecimal digit characters. -/
def hexToNat (l : List Char) : Nat :=
  l.foldl (fun a c => a * 16 + hexVal c) 0

/-- JavaScript `parseInt(s)` (radix argument omitted): skip leading
whitespace, read an optional sign, then either a `0x`-prefixed run of hex
digits or a run of decimal digits; trailing garbage is ignored; if no
digit is read the result is `NaN`, embedded as `none`. -/
def jsParseInt (s : String) : Option Int :=
  let cs0 := s.data.dropWhile (fun c => c.isWhitespace)
  let neg : Bool := match cs0 with | '-' :: _ => true | _ => false
  let cs : List Char := match cs0 with | '-' :: t => t | '+' :: t => t | _ => cs0
  let mag : Option Nat :=
    match cs with
    | '0' :: 'x' :: t =>
      let d := t.takeWhile isHexDigitChar
      if d = [] then none else some (hexToNat d)
    | '0' :: 'X' :: t =>
      let d := t.takeWhile isHexDigitChar
      if d = [] then none else some (hexToNat d)
    | _ =>
      let d := cs.takeWhile (fun c => c.isDigit)
      if d = [] then none else some (digitsToNat d)
  match mag with
  | none => none
  | some n => some (if neg then -(n : Int) else (n : Int))

/-- Insert `a` into `l`, placing it after every element `b` with `le b a`.
Folding this over a list from the left is a stable sort. -/
def insertSorted (le : α → α → Bool) (a : α) : List α → List α
  | [] => [a]
  | b :: bs => if le b a then b :: insertSorted le a bs else a :: b :: bs

/-- Stable sort embedding `Array.prototype.sort(cmp)`: `le x y` holds when
the comparator result on `(x, y)` is not positive. -/
def jsSortBy (le : α → α → Bool) (l : List α) : List α :=
  l.foldl (fun acc x => insertSorted le x acc) []

/-! ### Extractor (`parseChurchesFromHTML`) -/

/-- The pieces of markup text that `parseChurchesFromHTML` reads for one
matched anchor element and its closest `div`/`section`/`article`
container. `descTexts` lists the `.text()` of every descendant element of
the container in document order. -/
structure AnchorCtx where
  containerPrevText : String
  linkPrevText : String
  linkText : String
  headingText : String
  descTexts : List String
deriving DecidableEq

/-- One extracted year record (the object pushed onto `churches`). -/
structure Church where
  name : String
  location : String
  pastor : String
  attendance : Option Nat
  ranking : Nat
deriving DecidableEq

/-- The three trimmed candidate texts tried for the ranking, in order:
container's previous sibling, first descendant of the container, anchor's
previous sibling. -/
def trimmedRankCandidates (ctx : AnchorCtx) : List String :=
  [jsTrim ctx.containerPrevText, jsTrim (ctx.descTexts.headD ""), jsTrim ctx.linkPrevText]

/-- One candidate text matched against `^\d+$` and bounded by 100: the
value when the whole string is a nonempty digit run whose value is at
most 100. -/
def pureIntLe100 (s : String) : Option Nat :=
  if s ≠ "" ∧ s.data.all (fun c => c.isDigit) then
    if digitsToNat s.data ≤ 100 then some (digitsToNat s.data) else none
  else none

/-- First rank candidate accepted by the selector loop. -/
def findRankNum (cands : List String) : Option Nat :=
  cands.findSome? pureIntLe100

/-- Final ranking for the anchor at 0-based position `index`: the first
accepted candidate when it is a truthy number, otherwise the incremental
fallback `index + 1` (a candidate value `0` is falsy in JavaScript and
also falls back). -/
def rankOf (index : Nat) (ctx : AnchorCtx) : Nat :=
  match findRankNum (trimmedRankCandidates ctx) with
  | some r => if r = 0 then index + 1 else r
  | none => index + 1

/-- Church name: the anchor's trimmed text, with the first heading
descendant's text as fallback when it is empty. -/
def nameOf (ctx : AnchorCtx) : String :=
  let n := jsTrim ctx.linkText
  if n = "" then jsTrim ctx.headingText else n

/-- Test for the location regex `[A-Za-z\s]+,\s*[A-Z]x2+` anchored at both
ends: letters and whitespace, a comma, optional whitespace, then at least
two uppercase letters. -/
def isCityState (s : String) : Bool :=
  let cs := s.data
  let pre := cs.takeWhile (fun c => c ≠ ',')
  match cs.drop pre.length with
  | ',' :: rest =>
    decide (pre ≠ []) && pre.all (fun c => c.isAlpha || c.isWhitespace) &&
      (let st := rest.dropWhile (fun c => c.isWhitespace)
       decide (2 ≤ st.length) && st.all (fun c => c.isUpper))
  | _ => false

/-- Pastor heuristic for one descendant text: if the text contains a
hyphen and is under 100 characters, split on hyphens and accept the
trimmed last segment when it is nonempty, comma-free and under 50
characters. -/
def pastorCandidate (text : String) : Option String :=
  if text.data.contains '-' ∧ text.length < 100 then
    let parts := splitOnChar '-' text.data
    if 2 ≤ parts.length then
      let lastPart := jsTrim ⟨parts.getLastD []⟩
      if lastPart ≠ "" ∧ (¬ lastPart.data.contains ',') ∧ lastPart.length < 50 then
        some lastPart
      else none
    else none
  else none

/-- The last-match-wins scan over all descendant texts producing the
location and pastor fields (empty string when never matched). -/
def scanLocPastor (texts : List String) : String × String :=
  texts.foldl
    (fun lp t =>
      let text := jsTrim t
      let loc := if isCityState text && decide (text.length < 50) then text else lp.1
      let pas :=
        match pastorCandidate text with
        | some p => p
        | none => lp.2
      (loc, pas))
    ("", "")

/-- First match of the regex `\b(\d{3,6})\b` in a character list, given
whether the character before the current position is a word character. A
match at a position needs: no word character before it, a maximal digit
run of length 3 to 6, and no word character after the run. On failure the
scan advances one character. -/
def firstNumRunAux : Bool → List Char → Option Nat
  | _, [] => none
  | prevWord, c :: rest =>
    if c.isDigit && !prevWord then
      let run := (c :: rest).takeWhile (fun d => d.isDigit)
      let boundaryOk : Bool :=
        match ((c :: rest).drop run.length).head? with
        | some d => !isWordChar d
        | none => true
      if 3 ≤ run.length ∧ run.length ≤ 6 ∧ boundaryOk = true then
        some (digitsToNat run)
      else firstNumRunAux (isWordChar c) rest
    else firstNumRunAux (isWordChar c) rest

/-- First `\b(\d{3,6})\b` match in a string. -/
def firstNumRun (s : String) : Option Nat := firstNumRunAux false s.data

/-- The attendance scan: fold over all descendant texts; a text's first
3-to-6-digit run is considered only when attendance is still unset, and
accepted only when it lies in [1000, 100000]. -/
def extractAttendance (texts : List String) : Option Nat :=
  texts.foldl
    (fun att t =>
      match att with
      | some v => some v
      | none =>
        match firstNumRun (jsTrim t) with
        | some n => if 1000 ≤ n ∧ n ≤ 100000 then some n else none
        | none => none)
    none

/-- The record built for the anchor at 0-based position `index`, when the
`churchName && ranking` guard passes. -/
def mkChurch (index : Nat) (ctx : AnchorCtx) : Option Church :=
  let ranking := rankOf index ctx
  let churchName := nameOf ctx
  let lp := scanLocPastor ctx.descTexts
  let attendance := extractAttendance ctx.descTexts
  if churchName ≠ "" ∧ ranking ≠ 0 then
    some ⟨churchName,
      (if lp.1 = "" then "Location not found" else lp.1),
      (if lp.2 = "" then "Pastor not found" else lp.2),
      attendance, ranking⟩
  else none

/-- `parseChurchesFromHTML`: one record per matched anchor (skips where
the guard fails), sorted ascending by ranking. -/
def parseChurchesFromHTML (ctxs : List AnchorCtx) : List Church :=
  jsSortBy (fun a b => decide (a.ranking ≤ b.ranking))
    (ctxs.enum.filterMap (fun p => mkChurch p.1 p.2))

/-! ### Year scraper (`scrapeYearData`) -/

/-- Outcome of fetching one page: a non-success HTTP status (or a thrown
network error) or the page markup, abstracted as its anchor contexts. -/
inductive FetchResult where
  | httpFail
  | body (page : List AnchorCtx)

/-- The page loop of `scrapeYearData`. `fuel` counts the remaining
iterations allowed by `page <= 10`, so the initial call has fuel 10; a
non-success status throws on page 1 and breaks otherwise; an empty
extraction clears `hasMorePages`. -/
def scrapeLoop (pages : Nat → FetchResult) : Nat → Nat → List Church → Except Unit (List Church)
  | 0, _, churches => .ok churches
  | fuel + 1, page, churches =>
    match pages page with
    | .httpFail => if page = 1 then .error () else .ok churches
    | .body ctxs =>
      let pageChurches := parseChurchesFromHTML ctxs
      if pageChurches = [] then .ok churches
      else scrapeLoop pages fuel (page + 1) (churches ++ pageChurches)

/-- `scrapeYearData` for one year, as a function of the fetch oracle. -/
def scrapeYearData (pages : Nat → FetchResult) : Except Unit (List Church) :=
  scrapeLoop pages 10 1 []

/-- Instrumented page loop also returning the list of pages fetched. -/
def scrapeLoopTr (pages : Nat → FetchResult) :
    Nat → Nat → List Church → List Nat × Except Unit (List Church)
  | 0, _, churches => ([], .ok churches)
  | fuel + 1, page, churches =>
    match pages page with
    | .httpFail => ([page], if page = 1 then .error () else .ok churches)
    | .body ctxs =>
      let pageChurches := parseChurchesFromHTML ctxs
      if pageChurches = [] then ([page], .ok churches)
      else
        let r := scrapeLoopTr pages fuel (page + 1) (churches ++ pageChurches)
        (page :: r.1, r.2)

/-- Instrumented run of `scrapeYearData`. -/
def scrapeTrace (pages : Nat → FetchResult) : List Nat × Except Unit (List Church) :=
  scrapeLoopTr pages 10 1 []

/-! ### Consolidator (`consolidateChurchData`) -/

/-- One entry of an entity's multi-year series; `year` is `parseInt` of
the object key, so a non-numeric key gives `none` (`NaN`). -/
structure SeriesEntry where
  year : Option Int
  attendance : Option Nat
  ranking : Nat
deriving DecidableEq

/-- One consolidated entity (`churchMap` value). -/
structure Entity where
  name : String
  location : String
  pastor : String
  data : List SeriesEntry
deriving DecidableEq

/-- Processing one record: the first record of a name creates the entity
(capturing that record's location and pastor) and every record appends
one series entry to its entity. The entity list keeps `Map` insertion
order. -/
def pushEntry (yr : Option Int) (c : Church) : List Entity → List Entity
  | [] => [⟨c.name, c.location, c.pastor, [⟨yr, c.attendance, c.ranking⟩]⟩]
  | e :: es =>
    if e.name = c.name then
      ⟨e.name, e.location, e.pastor, e.data ++ [⟨yr, c.attendance, c.ranking⟩]⟩ :: es
    else
      e :: pushEntry yr c es

/-- The `churchMap` built by the double `forEach` over
`Object.entries(yearlyData)`; the input is that entries list. -/
def buildMap (yearlyData : List (String × List Church)) : List Entity :=
  yearlyData.foldl (fun m p => p.2.foldl (fun m c => pushEntry (jsParseInt p.1) c m) m) []

/-- Comparator `(a, b) => a.year - b.year` as a boolean order: the result
is not positive; a `NaN` year compares as not positive on both sides. -/
def yearLe (a b : SeriesEntry) : Bool :=
  match a.year, b.year with
  | some x, some y => decide (x ≤ y)
  | _, _ => true

/-- Ranking of the last series element (`data[data.length - 1].ranking`);
0 as a placeholder on an empty series, which the filter rules out. -/
def latestRanking (e : Entity) : Nat :=
  match e.data.getLast? with
  | some s => s.ranking
  | none => 0

/-- Final comparator `aLatest.ranking - bLatest.ranking` as a boolean
order. -/
def entityRankLe (a b : Entity) : Bool :=
  decide (latestRanking a ≤ latestRanking b)

/-- `consolidateChurchData` as defined in `server.js`: group all records
by name, keep entities with at least 3 series entries, sort each series
by year, and sort entities by the ranking of their last series entry. -/
def consolidateChurchData (yearlyData : List (String × List Church)) : List Entity :=
  jsSortBy entityRankLe
    (((buildMap yearlyData).filter (fun e => decide (3 ≤ e.data.length))).map
      (fun e => ⟨e.name, e.location, e.pastor, jsSortBy yearLe e.data⟩))

namespace Part000

/-- `consolidateChurchData` as defined in the unnamed source file
(`part_000`); its body is the same text as the `server.js` version. -/
def consolidateChurchData (yearlyData : List (String × List Church)) : List Entity :=
  jsSortBy entityRankLe
    (((buildMap yearlyData).filter (fun e => decide (3 ≤ e.data.length))).map
      (fun e => ⟨e.name, e.location, e.pastor, jsSortBy yearLe e.data⟩))

end Part000

/-! ### Persistence and routes -/

/-- Shape of the parsed persisted payload, with the fields the routes
read; a field can be absent (`none`). -/
structure StoredData where
  consolidatedData : Option (List Entity)
  lastUpdated : Option String
  yearsCovered : Option (List Int)
deriving DecidableEq

/-- Outcome oracle for one attempt to read the data file: the file is
absent, `readFile` throws, `JSON.parse` throws, or parsing succeeds. -/
inductive LoadSource where
  | missing
  | readError
  | badJson
  | good (d : StoredData)
deriving DecidableEq

/-- The in-memory cache guard of `loadChurchData`:
`cachedData && lastLoaded && (now - lastLoaded) < 60000` (a zero
timestamp is falsy). -/
def cacheFresh (now : Nat) (cachedData : Option StoredData) (lastLoaded : Option Nat) : Bool :=
  match cachedData, lastLoaded with
  | some _, some t => decide (t ≠ 0) && decide (now - t < 60000)
  | _, _ => false

/-- `loadChurchData`: returns the loaded data (or `null`) together with
the new `cachedData` and `lastLoaded` module state. Every failure is
caught inside and becomes a `null` result. -/
def loadChurchData (now : Nat) (cachedData : Option StoredData) (lastLoaded : Option Nat)
    (src : LoadSource) : Option StoredData × Option StoredData × Option Nat :=
  if cacheFresh now cachedData lastLoaded then (cachedData, cachedData, lastLoaded)
  else
    match src with
    | .missing => (none, cachedData, lastLoaded)
    | .readError => (none, cachedData, lastLoaded)
    | .badJson => (none, cachedData, lastLoaded)
    | .good d => (some d, some d, some now)

/-- Response of `GET /api/get-data`. -/
inductive GetDataResp where
  | notFound
  | payload (cd : List Entity) (lastUpdated : Option String) (total : Nat) (years : List Int)
deriving DecidableEq

/-- The `GET /api/get-data` handler: 404 when the load result is `null`
or has no `consolidatedData`, 200 with the payload otherwise. -/
def getDataHandler (now : Nat) (cachedData : Option StoredData) (lastLoaded : Option Nat)
    (src : LoadSource) : GetDataResp :=
  match (loadChurchData now cachedData lastLoaded src).1 with
  | none => .notFound
  | some d =>
    match d.consolidatedData with
    | none => .notFound
    | some cds => .payload cds d.lastUpdated cds.length (d.yearsCovered.getD [])

/-- HTTP status of a `GET /api/get-data` response. -/
def statusOf : GetDataResp → Nat
  | .notFound => 404
  | .payload _ _ _ _ => 200

/-- Response of `GET /api/scrape-year/:year`. -/
inductive ScrapeYearResp where
  | badRequest
  | fromCache (ts : Nat)
  | attempt (y : Option Int)
deriving DecidableEq

/-- String interpolation of the parsed year into the cache key
(`NaN` prints as the literal text `NaN`). -/
def jsIntKey : Option Int → String
  | some v => toString v
  | none => "NaN"

/-- Per-year cache TTL (24 hours in milliseconds). -/
def cacheDuration : Nat := 24 * 60 * 60 * 1000

/-- The `GET /api/scrape-year/:year` handler up to the point where a
scrape would run: `parseInt` the parameter, reject with 400 when
`year < 2015 || year > 2024` (both comparisons are false on `NaN`), then
serve a fresh cache entry or attempt the scrape. `cacheTs` gives the
timestamp of the cache entry stored under a key, if any. -/
def scrapeYearHandler (cacheTs : String → Option Nat) (now : Nat) (yearParam : String) :
    ScrapeYearResp :=
  let year := jsParseInt yearParam
  let bad : Bool :=
    match year with
    | some v => decide (v < 2015) || decide (2024 < v)
    | none => false
  if bad then .badRequest
  else
    match cacheTs ("year-" ++ jsIntKey year) with
    | some ts => if now - ts < cacheDuration then .fromCache ts else .attempt year
    | none => .attempt year

/-! ### Spec-side formalization helpers for the claims -/

/-- Total number of records with a given name across all year lists. -/
def recordCount (yearlyData : List (String × List Church)) (n : String) : Nat :=
  (yearlyData.flatMap (fun p => p.2)).countP (fun c => decide (c.name = n))

/-- Number of distinct year keys under which a given name has a record. -/
def distinctYearKeys (yearlyData : List (String × List Church)) (n : String) : Nat :=
  ((yearlyData.filter (fun p => p.2.any (fun c => decide (c.name = n)))).map
    (fun p => p.1)).dedup.length

/-- Strict ascent by year of a series, as the claim states it: every
adjacent pair has actual years with the first strictly below the second. -/
def strictAscYears : List SeriesEntry → Bool
  | [] => true
  | [_] => true
  | x :: y :: rest =>
    (match x.year, y.year with
     | some a, some b => decide (a < b)
     | _, _ => false) && strictAscYears (y :: rest)

/-- All matches of `\b(\d{3,6})\b` in a character list, in order,
continuing after each match (claim-side notion of every number
encountered during a scan). Every step consumes at least one character,
so a fuel of the list length is enough. -/
def allNumRunsAux : Nat → Bool → List Char → List Nat
  | 0, _, _ => []
  | _, _, [] => []
  | fuel + 1, prevWord, c :: rest =>
    if c.isDigit && !prevWord then
      let run := (c :: rest).takeWhile (fun d => d.isDigit)
      let after := (c :: rest).drop run.length
      let boundaryOk : Bool :=
        match after.head? with
        | some d => !isWordChar d
        | none => true
      if 3 ≤ run.length ∧ run.length ≤ 6 ∧ boundaryOk = true then
        digitsToNat run :: allNumRunsAux fuel true after
      else allNumRunsAux fuel (isWordChar c) rest
    else allNumRunsAux fuel (isWordChar c) rest

/-- All `\b(\d{3,6})\b` matches in a string, in order. -/
def allNumRuns (s : String) : List Nat := allNumRunsAux s.data.length false s.data

/-- The attendance the claim describes: the first number among all
3-to-6-digit runs encountered across the whole descendant scan that lies
in [1000, 100000]. -/
def claimAttendance (texts : List String) : Option Nat :=
  (texts.flatMap (fun t => allNumRuns (jsTrim t))).find?
    (fun v => decide (1000 ≤ v ∧ v ≤ 100000))

/-- The attendance rule the code implements, stated directly: the first
descendant text whose first 3-to-6-digit run lies in [1000, 100000]
decides the field; later runs within a text are never examined. -/
def amendedAttendance (texts : List String) : Option Nat :=
  (texts.filterMap (fun t => firstNumRun (jsTrim t))).find?
    (fun v => decide (1000 ≤ v ∧ v ≤ 100000))

/-- Length of the series stored for name `n` in an entity list (0 when no
entity carries that name; `find?` takes the first match, and entity names
are unique by construction). -/
def entryLen (m : List Entity) (n : String) : Nat :=
  match m.find? (fun e => decide (e.name = n)) with
  | some e => e.data.length
  | none => 0

/-- The records of all years flattened, each paired with its parsed year
key, in processing order. -/
def flatRecords (yearlyData : List (String × List Church)) : List (Option Int × Church) :=
  yearlyData.flatMap (fun p => p.2.map (fun c => (jsParseInt p.1, c)))

/-! ### Concrete inputs used by counterexamples and witnesses -/

/-- A record named `A`, as an extractor output could produce it. -/
def cA : Church := ⟨"A", "L", "P", none, 1⟩

/-- One year whose list carries three records with the same name. -/
def ydDup : List (String × List Church) := [("2015", [cA, cA, cA])]

/-- Three years with one record named `A` each. -/
def ydW3 : List (String × List Church) := [("2015", [cA]), ("2016", [cA]), ("2017", [cA])]

/-- An anchor with a name but no rank text anywhere. -/
def ctxPlain : AnchorCtx := ⟨"", "", "A", "", []⟩

/-- A page with 101 matched anchors, none carrying rank text. -/
def ctxs101 : List AnchorCtx := List.replicate 101 ctxPlain

/-- An anchor whose container's previous sibling text is the rank 7. -/
def ctxRank7 : AnchorCtx := ⟨"7", "", "B", "", []⟩

/-- The record the extractor produces for `ctxPlain` on page position 0. -/
def churchA1 : Church := ⟨"A", "Location not found", "Pastor not found", none, 1⟩

/-- A one-anchor page body. -/
def pg1W : List AnchorCtx := [ctxPlain]

/-- Fetch oracle: page 1 has content, every later page fails. -/
def pagesW6 : Nat → FetchResult := fun n => if n = 1 then .body pg1W else .httpFail

/-- Fetch oracle: page 1 has content, every later page has empty markup. -/
def pagesW7 : Nat → FetchResult := fun n => if n = 1 then .body pg1W else .body []

/-! ## Lemmas about the stable sort -/

theorem insertSorted_perm (le : α → α → Bool) (a : α) (l : List α) :
    (insertSorted le a l).Perm (a :: l) := by
  induction l with
  | nil => exact List.Perm.refl _
  | cons b bs ih =>
    unfold insertSorted
    by_cases hb : le b a = true
    · rw [if_pos hb]
      exact (List.Perm.cons b ih).trans (List.Perm.swap a b bs)
    · rw [if_neg hb]

theorem foldl_insertSorted_perm (le : α → α → Bool) :
    ∀ (l acc : List α), (l.foldl (fun acc x => insertSorted le x acc) acc).Perm (l ++ acc) := by
  intro l
  induction l with
  | nil => intro acc; simp
  | cons x xs ih =>
    intro acc
    simp only [List.foldl_cons]
    refine (ih (insertSorted le x acc)).trans ?_
    refine (List.Perm.append_left xs (insertSorted_perm le x acc)).trans ?_
    exact List.perm_middle

theorem jsSortBy_perm (le : α → α → Bool) (l : List α) : (jsSortBy le l).Perm l := by
  simpa using foldl_insertSorted_perm le l []

theorem mem_jsSortBy (le : α → α → Bool) (l : List α) (x : α) :
    x ∈ jsSortBy le l ↔ x ∈ l :=
  (jsSortBy_perm le l).mem_iff

theorem pairwise_insertSorted (le : α → α → Bool)
    (htot : ∀ x y, le x y = true ∨ le y x = true)
    (htrans : ∀ x y z, ¬ le y x = true → le y z = true → le x z = true)
    (a : α) : ∀ l : List α, l.Pairwise (fun x y => le x y = true) →
      (insertSorted le a l).Pairwise (fun x y => le x y = true) := by
  intro l
  induction l with
  | nil => intro _; simp [insertSorted]
  | cons b bs ih =>
    intro hp
    rw [List.pairwise_cons] at hp
    obtain ⟨hb, hbs⟩ := hp
    unfold insertSorted
    by_cases hba : le b a = true
    · rw [if_pos hba]
      rw [List.pairwise_cons]
      refine ⟨?_, ih hbs⟩
      intro x hx
      have hx' := (insertSorted_perm le a bs).mem_iff.mp hx
      rcases List.mem_cons.mp hx' with rfl | hxbs
      · exact hba
      · exact hb x hxbs
    · rw [if_neg hba]
      rw [List.pairwise_cons]
      constructor
      · intro x hx
        rcases List.mem_cons.mp hx with rfl | hxbs
        · rcases htot a x with h | h
          · exact h
          · exact absurd h hba
        · exact htrans a b x hba (hb x hxbs)
      · exact List.pairwise_cons.mpr ⟨hb, hbs⟩

theorem pairwise_jsSortBy (le : α → α → Bool)
    (htot : ∀ x y, le x y = true ∨ le y x = true)
    (htrans : ∀ x y z, ¬ le y x = true → le y z = true → le x z = true)
    (l : List α) : (jsSortBy le l).Pairwise (fun x y => le x y = true) := by
  suffices h : ∀ (l acc : List α), acc.Pairwise (fun x y => le x y = true) →
      (l.foldl (fun acc x => insertSorted le x acc) acc).Pairwise (fun x y => le x y = true) by
    exact h l [] (by simp)
  intro l
  induction l with
  | nil => intro acc h; simpa using h
  | cons x xs ih =>
    intro acc h
    exact ih _ (pairwise_insertSorted le htot htrans x acc h)

theorem entityRankLe_total (a b : Entity) :
    entityRankLe a b = true ∨ entityRankLe b a = true := by
  simp only [entityRankLe, decide_eq_true_eq]
  omega

theorem entityRankLe_trans (a b c : Entity) :
    ¬ entityRankLe b a = true → entityRankLe b c = true → entityRankLe a c = true := by
  simp only [entityRankLe, decide_eq_true_eq]
  omega

theorem yearLe_total (a b : SeriesEntry) : yearLe a b = true ∨ yearLe b a = true := by
  unfold yearLe
  rcases a.year with _ | x <;> rcases b.year with _ | y <;> simp
  omega

theorem yearLe_trans (a b c : SeriesEntry) :
    ¬ yearLe b a = true → yearLe b c = true → yearLe a c = true := by
  unfold yearLe
  rcases a.year with _ | x <;> rcases b.year with _ | y <;> rcases c.year with _ | z <;> simp
  omega

/-! ## Claim theorems -/

/-- C2: for every input mapping, the entity list returned by
`consolidateChurchData` is ordered so that the ranking of each entity's
last series element is non-decreasing along the list. -/
theorem claim_C2_rank_order (yearlyData : List (String × List Church)) :
    (consolidateChurchData yearlyData).Pairwise
      (fun a b => latestRanking a ≤ latestRanking b) := by
  have h := pairwise_jsSortBy entityRankLe entityRankLe_total entityRankLe_trans
    (((buildMap yearlyData).filter (fun e => decide (3 ≤ e.data.length))).map
      (fun e => ⟨e.name, e.location, e.pastor, jsSortBy yearLe e.data⟩))
  exact h.imp (by intro a b hab; simpa [entityRankLe] using hab)

/-- C10: the `consolidateChurchData` function of `server.js` and the one
of the unnamed source file compute the same output on every input. -/
theorem claim_C10_consolidate_equal (yearlyData : List (String × List Church)) :
    consolidateChurchData yearlyData = Part000.consolidateChurchData yearlyData := rfl

/-- C1 counterexample: with a single year carrying three records of the
same name, the entity appears in the output although it has records in
only one distinct year, so membership is not equivalent to having at
least 3 distinct years of records. -/
theorem claim_C1_counterexample :
    ¬ ((∃ e ∈ consolidateChurchData ydDup, e.name = "A") ↔
        3 ≤ distinctYearKeys ydDup "A") := by
  decide

/-- C3 counterexample: the same input yields an entity whose series
repeats one year three times, hence is not strictly ascending by year. -/
theorem claim_C3_counterexample :
    ∃ e ∈ consolidateChurchData ydDup, strictAscYears e.data = false := by
  decide

/-- C5 counterexample: in a container whose single descendant text is
`500 2000`, the first qualifying 3-to-6-digit number encountered in the
scan is 2000, but the code leaves attendance null because only the first
digit run of each text node is examined. -/
theorem claim_C5_counterexample :
    ¬ (extractAttendance ["500 2000"] = claimAttendance ["500 2000"]) := by
  decide

/-- C8 counterexample: with a cold cache and a read failure, the
`GET /api/get-data` handler answers 404, not a 500-class status. -/
theorem claim_C8_counterexample :
    statusOf (getDataHandler 100000 none none .readError) = 404 ∧
      ¬ (500 ≤ statusOf (getDataHandler 100000 none none .readError)) := by
  decide

/-! ## Rank extraction (C4) -/

theorem rankOf_pos (i : Nat) (ctx : AnchorCtx) : 1 ≤ rankOf i ctx := by
  unfold rankOf
  split
  · split <;> omega
  · omega

theorem pureIntLe100_le (s : String) (r : Nat) (h : pureIntLe100 s = some r) : r ≤ 100 := by
  unfold pureIntLe100 at h
  split at h
  · split at h
    · injection h with h2
      omega
    · exact absurd h (by simp)
  · exact absurd h (by simp)

theorem findRankNum_le (cs : List String) (r : Nat) (h : findRankNum cs = some r) :
    r ≤ 100 := by
  obtain ⟨s, _, hs⟩ := List.exists_of_findSome?_eq_some h
  exact pureIntLe100_le s r hs

theorem rankOf_fallback (i : Nat) (ctx : AnchorCtx)
    (h : findRankNum (trimmedRankCandidates ctx) = none) : rankOf i ctx = i + 1 := by
  unfold rankOf
  rw [h]

theorem rankOf_fromText (i : Nat) (ctx : AnchorCtx) (r : Nat)
    (h : findRankNum (trimmedRankCandidates ctx) = some r) (hr : r ≠ 0) :
    rankOf i ctx = r ∧ 1 ≤ r ∧ r ≤ 100 := by
  refine ⟨?_, by omega, findRankNum_le _ r h⟩
  unfold rankOf
  rw [h]
  show (if r = 0 then i + 1 else r) = r
  rw [if_neg hr]

theorem mem_parse_ranking (ctxs : List AnchorCtx) (c : Church)
    (h : c ∈ parseChurchesFromHTML ctxs) :
    ∃ p ∈ ctxs.enum, c.ranking = rankOf p.1 p.2 := by
  rw [parseChurchesFromHTML, mem_jsSortBy] at h
  obtain ⟨p, hp, hmk⟩ := List.mem_filterMap.mp h
  refine ⟨p, hp, ?_⟩
  simp only [mkChurch] at hmk
  split at hmk
  · cases hmk
    rfl
  · exact absurd hmk (by simp)

set_option maxRecDepth 10000 in
/-- C4 counterexample: on a page with 101 matched anchors and no rank
text, the extractor emits a record whose rank exceeds 100, refuting that
every emitted rank is at most 100. -/
theorem claim_C4_counterexample :
    ∃ c ∈ parseChurchesFromHTML ctxs101, 100 < c.ranking := by
  decide

/-- C4 (amended): every emitted rank is a positive integer; a rank taken
from a preceding-text candidate is at most 100; when no candidate is a
truthy pure integer at most 100 the rank is the anchor's 1-based position
among all matched anchors, which can exceed 100 on pages with more than
100 anchors. -/
theorem claim_C4_rank_amended (ctxs : List AnchorCtx) :
    (∀ c ∈ parseChurchesFromHTML ctxs, 1 ≤ c.ranking) ∧
    (∀ p ∈ ctxs.enum, findRankNum (trimmedRankCandidates p.2) = none →
      rankOf p.1 p.2 = p.1 + 1) ∧
    (∀ p ∈ ctxs.enum, ∀ r, findRankNum (trimmedRankCandidates p.2) = some r → r ≠ 0 →
      rankOf p.1 p.2 = r ∧ 1 ≤ r ∧ r ≤ 100) := by
  refine ⟨?_, ?_, ?_⟩
  · intro c hc
    obtain ⟨p, _, hrank⟩ := mem_parse_ranking ctxs c hc
    rw [hrank]
    exact rankOf_pos p.1 p.2
  · intro p _ h
    exact rankOf_fallback p.1 p.2 h
  · intro p _ r h hr
    exact rankOf_fromText p.1 p.2 r h hr

/-- C4 witness: on a one-anchor page whose container's previous sibling
text is `7`, the extracted rank is 7, positive and at most 100. -/
theorem claim_C4_witness : rankOf 0 ctxRank7 = 7 ∧ 1 ≤ 7 ∧ 7 ≤ 100 :=
  (claim_C4_rank_amended [ctxRank7]).2.2 (0, ctxRank7) (by decide) 7 (by decide) (by decide)

/-! ## Attendance extraction (C5) -/

theorem extract_foldl_some (texts : List String) (v : Nat) :
    texts.foldl
      (fun att t =>
        match att with
        | some v => some v
        | none =>
          match firstNumRun (jsTrim t) with
          | some n => if 1000 ≤ n ∧ n ≤ 100000 then some n else none
          | none => none)
      (some v) = some v := by
  induction texts with
  | nil => rfl
  | cons t ts ih => exact ih

/-- C5 (amended): the attendance field is decided by the first descendant
text whose own first 3-to-6-digit run lies in [1000, 100000]; later
qualifying matches never overwrite it, but a qualifying run that is not
the first digit run of its text node is never seen, and the field is null
when no text node's first run qualifies. -/
theorem claim_C5_amended (texts : List String) :
    extractAttendance texts = amendedAttendance texts := by
  induction texts with
  | nil => rfl
  | cons t ts ih =>
    unfold extractAttendance amendedAttendance at *
    simp only [List.foldl_cons, List.filterMap_cons]
    cases h : firstNumRun (jsTrim t) with
    | none =>
      simp only [h]
      exact ih
    | some n =>
      simp only [h]
      by_cases hq : 1000 ≤ n ∧ n ≤ 100000
      · rw [if_pos hq]
        rw [extract_foldl_some]
        rw [List.find?_cons_of_pos _ (by simpa using hq)]
      · rw [if_neg hq]
        rw [List.find?_cons_of_neg _ (by simpa using hq)]
        exact ih

/-! ## Series year order (C3) -/

/-- C3 (amended): every entity in the consolidated output has its series
sorted non-decreasingly by year (entries whose year is `NaN` compare as
equal to everything); entries can share a year when one year's list
repeats a name, so the order is non-decreasing rather than strictly
ascending. -/
theorem claim_C3_amended (yearlyData : List (String × List Church)) :
    ∀ e ∈ consolidateChurchData yearlyData,
      e.data.Pairwise (fun x y => yearLe x y = true) := by
  intro e he
  rw [consolidateChurchData, mem_jsSortBy] at he
  obtain ⟨e0, _, rfl⟩ := List.mem_map.mp he
  exact pairwise_jsSortBy yearLe yearLe_total yearLe_trans e0.data

/-- C3 witness: on three years each carrying one record named `A`, the
single output entity's series is sorted by year. -/
theorem claim_C3_witness :
    ((consolidateChurchData ydW3).headD ⟨"", "", "", []⟩).data.Pairwise
      (fun x y => yearLe x y = true) :=
  claim_C3_amended ydW3 _ (by decide)

/-! ## Grouping invariants (C1) -/

theorem entryLen_cons (e : Entity) (es : List Entity) (n : String) :
    entryLen (e :: es) n = if e.name = n then e.data.length else entryLen es n := by
  by_cases h : e.name = n
  · rw [if_pos h]
    unfold entryLen
    rw [List.find?_cons_of_pos _ (by simpa using h)]
  · rw [if_neg h]
    unfold entryLen
    rw [List.find?_cons_of_neg _ (by simpa using h)]

theorem entryLen_pushEntry (yr : Option Int) (c : Church) (n : String) :
    ∀ m : List Entity, entryLen (pushEntry yr c m) n =
      if c.name = n then entryLen m n + 1 else entryLen m n := by
  intro m
  induction m with
  | nil =>
    by_cases h : c.name = n
    · rw [if_pos h]
      show entryLen [⟨c.name, c.location, c.pastor, [⟨yr, c.attendance, c.ranking⟩]⟩] n = _
      rw [entryLen_cons, if_pos h]
      rfl
    · rw [if_neg h]
      show entryLen [⟨c.name, c.location, c.pastor, [⟨yr, c.attendance, c.ranking⟩]⟩] n = _
      rw [entryLen_cons, if_neg h]
  | cons e es ih =>
    unfold pushEntry
    by_cases he : e.name = c.name
    · rw [if_pos he]
      rw [entryLen_cons, entryLen_cons]
      by_cases hn : e.name = n
      · simp only [hn, if_true, if_pos (he ▸ hn : c.name = n)]
        simp
      · simp only [hn, if_false]
        rw [if_neg (fun hcn => hn (he.trans hcn))]
    · rw [if_neg he]
      rw [entryLen_cons, entryLen_cons]
      by_cases hn : e.name = n
      · rw [if_pos hn, if_pos hn]
        rw [if_neg (fun hcn : c.name = n => he (hn ▸ hcn).symm)]
      · rw [if_neg hn, if_neg hn, ih]

theorem entryLen_foldl (n : String) :
    ∀ (rs : List (Option Int × Church)) (m : List Entity),
      entryLen (rs.foldl (fun m r => pushEntry r.1 r.2 m) m) n =
        entryLen m n + rs.countP (fun r => decide (r.2.name = n)) := by
  intro rs
  induction rs with
  | nil => intro m; simp
  | cons r rs ih =>
    intro m
    simp only [List.foldl_cons, List.countP_cons]
    rw [ih, entryLen_pushEntry]
    by_cases h : r.2.name = n
    · rw [if_pos h]
      simp [h]
      omega
    · rw [if_neg h]
      simp [h]

theorem buildMap_eq_flat (yearlyData : List (String × List Church)) :
    buildMap yearlyData =
      (flatRecords yearlyData).foldl (fun m r => pushEntry r.1 r.2 m) [] := by
  suffices h : ∀ (yd : List (String × List Church)) (m : List Entity),
      yd.foldl (fun m p => p.2.foldl (fun m c => pushEntry (jsParseInt p.1) c m) m) m =
      (yd.flatMap (fun p => p.2.map (fun c => (jsParseInt p.1, c)))).foldl
        (fun m r => pushEntry r.1 r.2 m) m by
    exact h _ []
  intro yd
  induction yd with
  | nil => intro m; rfl
  | cons p ps ih =>
    intro m
    simp only [List.foldl_cons, List.flatMap_cons, List.foldl_append]
    rw [List.foldl_map]
    exact ih _

theorem countP_flatRecords (yearlyData : List (String × List Church)) (n : String) :
    (flatRecords yearlyData).countP (fun r => decide (r.2.name = n)) =
      recordCount yearlyData n := by
  unfold flatRecords recordCount
  induction yearlyData with
  | nil => rfl
  | cons p ps ih =>
    simp only [List.flatMap_cons, List.countP_append, List.countP_map]
    rw [ih]
    rfl

theorem entryLen_buildMap (yearlyData : List (String × List Church)) (n : String) :
    entryLen (buildMap yearlyData) n = recordCount yearlyData n := by
  rw [buildMap_eq_flat, entryLen_foldl, countP_flatRecords]
  simp [entryLen]

theorem mem_names_pushEntry (yr : Option Int) (c : Church) (x : String) :
    ∀ m : List Entity, x ∈ (pushEntry yr c m).map (fun e => e.name) →
      x ∈ m.map (fun e => e.name) ∨ x = c.name := by
  intro m
  induction m with
  | nil =>
    intro h
    simp only [pushEntry, List.map_cons, List.map_nil] at h
    right
    simpa using h
  | cons e es ih =>
    unfold pushEntry
    by_cases he : e.name = c.name
    · rw [if_pos he]
      intro h
      simp only [List.map_cons, List.mem_cons] at h ⊢
      tauto
    · rw [if_neg he]
      intro h
      simp only [List.map_cons, List.mem_cons] at h ⊢
      rcases h with h | h
      · exact Or.inl (Or.inl h)
      · rcases ih h with h2 | h2
        · exact Or.inl (Or.inr h2)
        · exact Or.inr h2

theorem nodup_names_pushEntry (yr : Option Int) (c : Church) :
    ∀ m : List Entity, (m.map (fun e => e.name)).Nodup →
      ((pushEntry yr c m).map (fun e => e.name)).Nodup := by
  intro m
  induction m with
  | nil => intro _; simp [pushEntry]
  | cons e es ih =>
    intro hnd
    rw [List.map_cons, List.nodup_cons] at hnd
    obtain ⟨hne, hnd'⟩ := hnd
    unfold pushEntry
    by_cases he : e.name = c.name
    · rw [if_pos he]
      rw [List.map_cons, List.nodup_cons]
      exact ⟨hne, hnd'⟩
    · rw [if_neg he]
      rw [List.map_cons, List.nodup_cons]
      refine ⟨?_, ih hnd'⟩
      intro hmem
      rcases mem_names_pushEntry yr c e.name es hmem with h | h
      · exact hne h
      · exact he h

theorem nodup_names_buildMap (yearlyData : List (String × List Church)) :
    ((buildMap yearlyData).map (fun e => e.name)).Nodup := by
  rw [buildMap_eq_flat]
  suffices h : ∀ (rs : List (Option Int × Church)) (m : List Entity),
      (m.map (fun e => e.name)).Nodup →
      ((rs.foldl (fun m r => pushEntry r.1 r.2 m) m).map (fun e => e.name)).Nodup by
    exact h _ [] (by simp)
  intro rs
  induction rs with
  | nil => intro m h; exact h
  | cons r rs ih =>
    intro m h
    exact ih _ (nodup_names_pushEntry r.1 r.2 m h)

theorem exists_mem_iff_entryLen (n : String) :
    ∀ m : List Entity, (m.map (fun e => e.name)).Nodup →
      ((∃ e ∈ m, e.name = n ∧ 3 ≤ e.data.length) ↔ 3 ≤ entryLen m n) := by
  intro m
  induction m with
  | nil => intro _; simp [entryLen]
  | cons e es ih =>
    intro hnd
    rw [List.map_cons, List.nodup_cons] at hnd
    obtain ⟨hne, hnd'⟩ := hnd
    rw [entryLen_cons]
    by_cases h : e.name = n
    · rw [if_pos h]
      constructor
      · rintro ⟨e', he', hn', hlen⟩
        rcases List.mem_cons.mp he' with rfl | hmem
        · exact hlen
        · exact absurd (hn'.trans h.symm ▸ List.mem_map_of_mem (fun e => e.name) hmem) hne
      · intro hlen
        exact ⟨e, List.mem_cons_self e es, h, hlen⟩
    · rw [if_neg h]
      rw [← ih hnd']
      constructor
      · rintro ⟨e', he', hn', hlen⟩
        rcases List.mem_cons.mp he' with rfl | hmem
        · exact absurd hn' h
        · exact ⟨e', hmem, hn', hlen⟩
      · rintro ⟨e', hmem, hn', hlen⟩
        exact ⟨e', List.mem_cons_of_mem e hmem, hn', hlen⟩

theorem mem_name_consolidate (yearlyData : List (String × List Church)) (n : String) :
    (∃ e ∈ consolidateChurchData yearlyData, e.name = n) ↔
      (∃ e ∈ buildMap yearlyData, e.name = n ∧ 3 ≤ e.data.length) := by
  unfold consolidateChurchData
  constructor
  · rintro ⟨e, he, hn⟩
    rw [mem_jsSortBy] at he
    obtain ⟨e0, he0, rfl⟩ := List.mem_map.mp he
    rw [List.mem_filter] at he0
    obtain ⟨hmem, hlen⟩ := he0
    exact ⟨e0, hmem, hn, by simpa using hlen⟩
  · rintro ⟨e0, hmem, hn, hlen⟩
    refine ⟨⟨e0.name, e0.location, e0.pastor, jsSortBy yearLe e0.data⟩, ?_, hn⟩
    rw [mem_jsSortBy]
    exact List.mem_map_of_mem _ (List.mem_filter.mpr ⟨hmem, by simpa using hlen⟩)

/-- C1 (amended): an organization appears as an entity in the output of
`consolidateChurchData` if and only if it has at least 3 records in total
across the input mapping; records of the same name within a single
year's list each count, so 3 distinct years are not required. -/
theorem claim_C1_amended (yearlyData : List (String × List Church)) (n : String) :
    (∃ e ∈ consolidateChurchData yearlyData, e.name = n) ↔
      3 ≤ recordCount yearlyData n := by
  rw [mem_name_consolidate,
    exists_mem_iff_entryLen n (buildMap yearlyData) (nodup_names_buildMap yearlyData),
    entryLen_buildMap]

/-! ## Year scraper (C6, C7) -/

theorem scrapeLoopTr_snd (pages : Nat → FetchResult) :
    ∀ (fuel page : Nat) (acc : List Church),
      (scrapeLoopTr pages fuel page acc).2 = scrapeLoop pages fuel page acc := by
  intro fuel
  induction fuel with
  | zero => intro page acc; rfl
  | succ n ih =>
    intro page acc
    simp only [scrapeLoopTr, scrapeLoop]
    cases h : pages page with
    | httpFail => simp
    | body ctxs =>
      simp only
      by_cases hp : parseChurchesFromHTML ctxs = []
      · simp [hp]
      · simp only [hp, if_false]
        exact ih _ _

theorem scrapeLoopTr_length (pages : Nat → FetchResult) :
    ∀ (fuel page : Nat) (acc : List Church),
      (scrapeLoopTr pages fuel page acc).1.length ≤ fuel := by
  intro fuel
  induction fuel with
  | zero => intro page acc; simp [scrapeLoopTr]
  | succ n ih =>
    intro page acc
    simp only [scrapeLoopTr]
    cases h : pages page with
    | httpFail => simp
    | body ctxs =>
      simp only
      by_cases hp : parseChurchesFromHTML ctxs = []
      · simp [hp]
      · simp only [hp, if_false, List.length_cons]
        exact Nat.add_le_add_right (ih _ _) 1

theorem scrapeLoopTr_empty_stop (pages : Nat → FetchResult) (f : Nat → List AnchorCtx) :
    ∀ (k page fuel : Nat) (acc : List Church), k < fuel →
      (∀ j, j < k → pages (page + j) = .body (f (page + j)) ∧
        parseChurchesFromHTML (f (page + j)) ≠ []) →
      (∃ g, pages (page + k) = .body g ∧ parseChurchesFromHTML g = []) →
      scrapeLoopTr pages fuel page acc =
        (List.range' page (k + 1),
          .ok (acc ++ ((List.range' page k).map
            (fun q => parseChurchesFromHTML (f q))).flatten)) := by
  intro k
  induction k with
  | zero =>
    intro page fuel acc hfuel _ hstop
    obtain ⟨g, hg, hge⟩ := hstop
    rw [Nat.add_zero] at hg
    cases fuel with
    | zero => omega
    | succ m =>
      simp only [scrapeLoopTr]
      rw [hg]
      simp [hge, List.range'_succ]
  | succ k ih =>
    intro page fuel acc hfuel hprev hstop
    cases fuel with
    | zero => omega
    | succ m =>
      have h0 := hprev 0 (by omega)
      rw [Nat.add_zero] at h0
      obtain ⟨hb, hne⟩ := h0
      simp only [scrapeLoopTr]
      rw [hb]
      simp only [hne, if_false]
      have ihres := ih (page + 1) m (acc ++ parseChurchesFromHTML (f page)) (by omega)
        (fun j hj => by
          have hh := hprev (j + 1) (by omega)
          rwa [show page + (j + 1) = page + 1 + j by omega] at hh)
        (by
          obtain ⟨g, hg, hge⟩ := hstop
          refine ⟨g, ?_, hge⟩
          rwa [show page + 1 + k = page + (k + 1) by omega])
      rw [ihres]
      simp [List.range'_succ, List.append_assoc]

theorem scrapeLoopTr_fail_stop (pages : Nat → FetchResult) (f : Nat → List AnchorCtx) :
    ∀ (k page fuel : Nat) (acc : List Church), k < fuel → 1 < page + k →
      (∀ j, j < k → pages (page + j) = .body (f (page + j)) ∧
        parseChurchesFromHTML (f (page + j)) ≠ []) →
      pages (page + k) = .httpFail →
      scrapeLoopTr pages fuel page acc =
        (List.range' page (k + 1),
          .ok (acc ++ ((List.range' page k).map
            (fun q => parseChurchesFromHTML (f q))).flatten)) := by
  intro k
  induction k with
  | zero =>
    intro page fuel acc hfuel hgt _ hfail
    rw [Nat.add_zero] at hfail hgt
    cases fuel with
    | zero => omega
    | succ m =>
      simp only [scrapeLoopTr]
      rw [hfail]
      have : page ≠ 1 := by omega
      simp [this, List.range'_succ]
  | succ k ih =>
    intro page fuel acc hfuel hgt hprev hfail
    cases fuel with
    | zero => omega
    | succ m =>
      have h0 := hprev 0 (by omega)
      rw [Nat.add_zero] at h0
      obtain ⟨hb, hne⟩ := h0
      simp only [scrapeLoopTr]
      rw [hb]
      simp only [hne, if_false]
      have ihres := ih (page + 1) m (acc ++ parseChurchesFromHTML (f page)) (by omega)
        (by omega)
        (fun j hj => by
          have hh := hprev (j + 1) (by omega)
          rwa [show page + (j + 1) = page + 1 + j by omega] at hh)
        (by rwa [show page + 1 + k = page + (k + 1) by omega])
      rw [ihres]
      simp [List.range'_succ, List.append_assoc]

/-- C6: a non-success HTTP response on page 1 of a year makes the whole
year fail with a propagated error, while a non-success response on a page
greater than 1 ends the page loop without error and the records collected
from the earlier pages are returned. -/
theorem claim_C6_page_failures (pages : Nat → FetchResult) :
    (pages 1 = .httpFail → scrapeYearData pages = .error ()) ∧
    (∀ (p : Nat) (f : Nat → List AnchorCtx), 1 < p → p ≤ 10 →
      (∀ q, 1 ≤ q → q < p →
        pages q = .body (f q) ∧ parseChurchesFromHTML (f q) ≠ []) →
      pages p = .httpFail →
      scrapeYearData pages =
        .ok (((List.range' 1 (p - 1)).map
          (fun q => parseChurchesFromHTML (f q))).flatten)) := by
  constructor
  · intro h
    unfold scrapeYearData
    simp [scrapeLoop, h]
  · intro p f hp1 hp10 hprev hfail
    have hrun := scrapeLoopTr_fail_stop pages f (p - 1) 1 10 [] (by omega) (by omega)
      (fun j hj => hprev (1 + j) (by omega) (by omega))
      (by rwa [show 1 + (p - 1) = p by omega])
    have hsnd := scrapeLoopTr_snd pages 10 1 []
    unfold scrapeYearData
    rw [← hsnd, hrun]
    simp

/-- C7: the year scraper fetches at most 10 pages, mirrors the
uninstrumented run, and when the first empty extraction occurs on page
`p` after nonempty earlier pages, it stops there having fetched exactly
pages 1 through `p` and returns the concatenation of the earlier pages'
records in page order. -/
theorem claim_C7_page_cap (pages : Nat → FetchResult) :
    (scrapeTrace pages).1.length ≤ 10 ∧
    (scrapeTrace pages).2 = scrapeYearData pages ∧
    (∀ (p : Nat) (f : Nat → List AnchorCtx) (g : List AnchorCtx), 1 ≤ p → p ≤ 10 →
      (∀ q, 1 ≤ q → q < p →
        pages q = .body (f q) ∧ parseChurchesFromHTML (f q) ≠ []) →
      pages p = .body g → parseChurchesFromHTML g = [] →
      scrapeYearData pages =
        .ok (((List.range' 1 (p - 1)).map
          (fun q => parseChurchesFromHTML (f q))).flatten) ∧
      (scrapeTrace pages).1 = List.range' 1 p) := by
  refine ⟨scrapeLoopTr_length pages 10 1 [], scrapeLoopTr_snd pages 10 1 [], ?_⟩
  intro p f g hp1 hp10 hprev hbody hempty
  have hstop : ∃ g', pages (1 + (p - 1)) = .body g' ∧ parseChurchesFromHTML g' = [] :=
    ⟨g, by rwa [show 1 + (p - 1) = p by omega], hempty⟩
  have hrun := scrapeLoopTr_empty_stop pages f (p - 1) 1 10 [] (by omega)
    (fun j hj => hprev (1 + j) (by omega) (by omega)) hstop
  constructor
  · have hsnd := scrapeLoopTr_snd pages 10 1 []
    unfold scrapeYearData
    rw [← hsnd]
    show (scrapeLoopTr pages 10 1 []).2 = _
    rw [hrun]
    simp
  · show (scrapeLoopTr pages 10 1 []).1 = _
    rw [hrun]
    show List.range' 1 (p - 1 + 1) = List.range' 1 p
    rw [show p - 1 + 1 = p by omega]

/-- C6 witness: with content on page 1 and an HTTP failure on page 2, the
year succeeds with exactly page 1's record. -/
theorem claim_C6_witness : scrapeYearData pagesW6 = .ok [churchA1] := by
  have h := (claim_C6_page_failures pagesW6).2 2 (fun _ => pg1W) (by omega) (by omega)
    (fun q h1 h2 => by
      have hq : q = 1 := by omega
      subst hq
      exact ⟨rfl, by decide⟩)
    rfl
  rw [h]
  congr 1

/-- C7 witness: with content on page 1 and empty markup on page 2, the
scraper fetches pages 1 and 2 and returns page 1's record. -/
theorem claim_C7_witness :
    scrapeYearData pagesW7 = .ok [churchA1] ∧ (scrapeTrace pagesW7).1 = [1, 2] := by
  have h := (claim_C7_page_cap pagesW7).2.2 2 (fun _ => pg1W) [] (by omega) (by omega)
    (fun q h1 h2 => by
      have hq : q = 1 := by omega
      subst hq
      exact ⟨rfl, by decide⟩)
    rfl rfl
  obtain ⟨h1, h2⟩ := h
  constructor
  · rw [h1]
    congr 1
  · rw [h2]
    decide

/-! ## Routes (C8, C9) -/

/-- C8 (amended): a failure to read or parse the persisted data file is
caught inside `loadChurchData`, which returns `null`; with a stale or
empty in-memory cache, `GET /api/get-data` then answers 404 — the same as
for missing data — and never a 500-class status for a read failure. -/
theorem claim_C8_amended (now : Nat) (cachedData : Option StoredData)
    (lastLoaded : Option Nat) (src : LoadSource)
    (hc : cacheFresh now cachedData lastLoaded = false)
    (hs : src = .readError ∨ src = .badJson) :
    statusOf (getDataHandler now cachedData lastLoaded src) = 404 := by
  rcases hs with rfl | rfl <;>
    simp [getDataHandler, loadChurchData, hc, statusOf]

/-- C8 witness: a concrete stale-cache read failure yields 404. -/
theorem claim_C8_witness : statusOf (getDataHandler 5 none none .badJson) = 404 :=
  claim_C8_amended 5 none none .badJson (by decide) (Or.inr rfl)

theorem cacheBranch_ne_badRequest (cacheTs : String → Option Nat) (now : Nat)
    (y : Option Int) :
    (match cacheTs ("year-" ++ jsIntKey y) with
      | some ts =>
        if now - ts < cacheDuration then ScrapeYearResp.fromCache ts else .attempt y
      | none => .attempt y) ≠ .badRequest := by
  cases cacheTs ("year-" ++ jsIntKey y) with
  | none => simp
  | some ts =>
    by_cases hts : now - ts < cacheDuration
    · simp [hts]
    · simp [hts]

/-- C9: `GET /api/scrape-year/:year` responds 400 exactly when the
parameter parses to an integer below 2015 or above 2024; a non-numeric
parameter (`NaN` parse) is not rejected, and with no fresh cache entry a
scrape of that value is attempted. -/
theorem claim_C9_year_validation (cacheTs : String → Option Nat) (now : Nat)
    (yearParam : String) :
    (scrapeYearHandler cacheTs now yearParam = .badRequest ↔
      (∃ v, jsParseInt yearParam = some v ∧ (v < 2015 ∨ 2024 < v))) ∧
    (jsParseInt yearParam = none → cacheTs "year-NaN" = none →
      scrapeYearHandler cacheTs now yearParam = .attempt none) := by
  cases h : jsParseInt yearParam with
  | none =>
    have hval : scrapeYearHandler cacheTs now yearParam =
        (match cacheTs ("year-" ++ jsIntKey none) with
          | some ts =>
            if now - ts < cacheDuration then ScrapeYearResp.fromCache ts
            else ScrapeYearResp.attempt none
          | none => ScrapeYearResp.attempt none) := by
      unfold scrapeYearHandler
      rw [h]
      rfl
    rw [hval]
    refine ⟨⟨?_, ?_⟩, ?_⟩
    · intro hbad
      exact absurd hbad (cacheBranch_ne_badRequest cacheTs now none)
    · rintro ⟨v, hv, _⟩
      exact Option.noConfusion hv
    · intro _ hcache
      have hkey : cacheTs ("year-" ++ jsIntKey none) = none := by
        rw [show ("year-" ++ jsIntKey none) = "year-NaN" by rfl]
        exact hcache
      rw [hkey]
  | some v =>
    have hval : scrapeYearHandler cacheTs now yearParam =
        (if (decide (v < 2015) || decide (2024 < v)) = true then ScrapeYearResp.badRequest
          else match cacheTs ("year-" ++ jsIntKey (some v)) with
            | some ts =>
              if now - ts < cacheDuration then ScrapeYearResp.fromCache ts
              else ScrapeYearResp.attempt (some v)
            | none => ScrapeYearResp.attempt (some v)) := by
      unfold scrapeYearHandler
      rw [h]
    rw [hval]
    by_cases hb : v < 2015 ∨ 2024 < v
    · have htrue : (decide (v < 2015) || decide (2024 < v)) = true := by
        rcases hb with hr | hr <;> simp [hr]
      rw [htrue, if_pos rfl]
      refine ⟨⟨fun _ => ⟨v, rfl, hb⟩, fun _ => rfl⟩, ?_⟩
      intro hnone
      exact Option.noConfusion hnone
    · have hfalse : (decide (v < 2015) || decide (2024 < v)) = false := by
        simp only [Bool.or_eq_false_iff, decide_eq_false_iff_not]
        constructor <;> omega
      rw [hfalse, if_neg (by simp)]
      refine ⟨⟨?_, ?_⟩, ?_⟩
      · intro hbad
        exact absurd hbad (cacheBranch_ne_badRequest cacheTs now (some v))
      · rintro ⟨v', hv', hrange⟩
        injection hv' with hvv
        subst hvv
        exact absurd hrange hb
      · intro hnone
        exact Option.noConfusion hnone

/-- C9 witness: the parameter `abc` parses to `NaN` and, with an empty
cache, leads to an attempted scrape of that value rather than a 400;
the parameter `2010` parses below 2015 and is rejected. -/
theorem claim_C9_witness :
    scrapeYearHandler (fun _ => none) 0 "abc" = .attempt none ∧
      scrapeYearHandler (fun _ => none) 0 "2010" = .badRequest := by
  constructor
  · exact (claim_C9_year_validation (fun _ => none) 0 "abc").2 (by decide) rfl
  · exact (claim_C9_year_validation (fun _ => none) 0 "2010").1.mpr
      ⟨2010, by decide, by omega⟩

end Outreach
